import Mathlib

/-!
Verification of the depsonar multi-ecosystem project-detection and
outdated-dependency engine.

This file shallowly embeds the core of `src/services/project.ts` (plus the
constants table of `src/constants.ts` and the background scanner of
`src/checker.ts`) and proves the frozen claims about it.

Modelling conventions:
* The effectful surroundings of one project directory are an `Env` record:
  binary-existence checks, the result of running an external command
  (`Except` models a thrown error caught by the callers' try blocks),
  a `JSON.parse` oracle (`none` models a parse exception), file existence,
  file reads and directory listings, all relative to the project directory.
* JavaScript objects parsed from JSON are the `Json` inductive; property
  reads that yield `undefined` are `Option.none`.  JavaScript string
  coercion and truthiness are `Json.jsStr` and `Json.truthy`; coercion of
  `undefined` renders the placeholder "undefined", matching template
  literals and property keys in the original.
* Mappings built by `result[key] = value` assignments are association lists
  with overwrite-or-append semantics (`jsInsert`).
* Machine numbers that appear (scores, vulnerability counts) are `Int`;
  array lengths are `Nat`.
-/

namespace Depsonar

/-- JSON values as produced by JSON.parse.  Numbers are modelled as
integers: every numeric field the embedded code reads is an integral
count. -/
inductive Json where
  | null
  | bool (b : Bool)
  | num (n : Int)
  | str (s : String)
  | arr (elems : List Json)
  | obj (fields : List (String × Json))
deriving Repr, Inhabited

/-- Property read on a JSON value; a non-object receiver or a missing key
gives `none`, modelling a JavaScript property read yielding undefined. -/
def Json.getField : Json → String → Option Json
  | .obj fields, k => (fields.find? (fun p => p.1 = k)).map (·.2)
  | _, _ => none

/-- JavaScript truthiness of a defined value. -/
def Json.truthy : Json → Bool
  | .null => false
  | .bool b => b
  | .num n => n != 0
  | .str s => s != ""
  | .arr _ => true
  | .obj _ => true

/-- Truthiness of a possibly-undefined value (undefined is falsy). -/
def jsTruthy : Option Json → Bool
  | none => false
  | some j => j.truthy

/-- JavaScript string coercion of a defined value.  JavaScript joins array
elements with commas; no code path embedded here ever renders an array, so
that case is collapsed to the empty string (the rendering of an empty or
all-null array). -/
def Json.jsStr : Json → String
  | .null => "null"
  | .bool true => "true"
  | .bool false => "false"
  | .num n => toString n
  | .str s => s
  | .arr _ => ""
  | .obj _ => "[object Object]"

/-- String coercion of a possibly-undefined value; undefined renders as
"undefined", as in JavaScript template literals and property keys. -/
def jsStrOpt : Option Json → String
  | none => "undefined"
  | some j => j.jsStr

/-- The field read `j.k` rendered as a string. -/
def fieldStr (j : Json) (k : String) : String :=
  jsStrOpt (j.getField k)

/-- Truthiness of the field read `j.k`. -/
def fieldTruthy (j : Json) (k : String) : Bool :=
  jsTruthy (j.getField k)

/-- The JavaScript idiom `j.k || d` (the rendered field when truthy, else
the fallback). -/
def fieldOr (j : Json) (k : String) (d : String) : String :=
  if fieldTruthy j k then fieldStr j k else d

/-- One row of the normalized outdated mapping (`OutdatedPackage` in
types.ts, whose fields are visible from every construction site in
project.ts): current installed version, wanted version, latest version and
an optional dependency-type tag (TS field name `type`). -/
structure OutdatedPackage where
  current : String
  wanted : String
  latest : String
  type : Option String := none
deriving Repr, DecidableEq

/-- The mapping `Record<string, OutdatedPackage>` built by repeated
`result[name] = entry` assignments. -/
abbrev OutdatedMap := List (String × OutdatedPackage)

/-- JavaScript object assignment `m[k] = v`: overwrite in place when the
key exists, append otherwise. -/
def jsInsert {α : Type} (m : List (String × α)) (k : String) (v : α) :
    List (String × α) :=
  if m.any (fun e => e.1 = k) then
    m.map (fun e => if e.1 = k then (k, v) else e)
  else m ++ [(k, v)]

/-! ### String primitives

The JavaScript string operations the source uses (trim, split, replace,
slice, startsWith, endsWith) are re-implemented here by structural
recursion over character lists, so that every embedded function evaluates
inside the kernel on concrete inputs. -/

/-- Whether the first character list is an initial segment of the
second. -/
def leadsWith : List Char → List Char → Bool
  | [], _ => true
  | _ :: _, [] => false
  | p :: ps, c :: cs => p = c && leadsWith ps cs

/-- JavaScript String#startsWith. -/
def strStartsWith (s pat : String) : Bool :=
  leadsWith pat.toList s.toList

/-- JavaScript String#endsWith. -/
def strEndsWith (s pat : String) : Bool :=
  leadsWith pat.toList.reverse s.toList.reverse

/-- JavaScript String#slice(0, n). -/
def strTake (s : String) (n : Nat) : String :=
  String.mk (s.toList.take n)

/-- JavaScript String#slice(n). -/
def strDrop (s : String) (n : Nat) : String :=
  String.mk (s.toList.drop n)

/-- Removal of the final n characters. -/
def strDropRight (s : String) (n : Nat) : String :=
  String.mk (s.toList.take (s.toList.length - n))

/-- JavaScript String#trim (over the Unicode whitespace class of
Char.isWhitespace). -/
def jsTrim (s : String) : String :=
  String.mk (((s.toList.dropWhile Char.isWhitespace).reverse.dropWhile
    Char.isWhitespace).reverse)

/-- Fuel-driven worker for splitting on a non-empty separator: leftmost,
non-overlapping occurrences, empty pieces kept.  The fuel is an upper
bound on the number of characters consumed, so it never runs out on the
initial call. -/
def jsSplitAux (sep : List Char) : Nat → List Char → List Char → List (List Char)
  | 0, l, acc => [acc.reverse ++ l]
  | fuel + 1, l, acc =>
    match l with
    | [] => [acc.reverse]
    | c :: rest =>
      if leadsWith sep (c :: rest) then
        acc.reverse :: jsSplitAux sep fuel (rest.drop (sep.length - 1)) []
      else jsSplitAux sep fuel rest (c :: acc)

/-- JavaScript String#split with a non-empty string separator. -/
def jsSplitOn (s sep : String) : List String :=
  (jsSplitAux sep.toList (s.toList.length + 1) s.toList []).map String.mk

/-- JavaScript String#replace with a global plain-string pattern
(split on the pattern and re-join with the replacement). -/
def jsReplaceAll (s pat repl : String) : String :=
  String.intercalate repl (jsSplitOn s pat)

/-- Splitting at every character satisfying a predicate (the behavior of
String#split with a single-character-class regex), empty pieces kept. -/
def splitPredAux (p : Char → Bool) : List Char → List Char → List (List Char)
  | [], acc => [acc.reverse]
  | c :: rest, acc =>
    if p c then acc.reverse :: splitPredAux p rest []
    else splitPredAux p rest (c :: acc)

/-- Node package managers (the `PackageManager` union in types.ts). -/
inductive PackageManager where
  | npm | pnpm | yarn | bun
deriving Repr, DecidableEq

/-- Command name of a package manager. -/
def pmName : PackageManager → String
  | .npm => "npm"
  | .pnpm => "pnpm"
  | .yarn => "yarn"
  | .bun => "bun"

/-- The nine supported ecosystems, in the key order of the
LANGUAGE_MARKERS table in constants.ts (the `Language` union in
types.ts). -/
inductive Language where
  | node | python | rust | go | php | ruby | dart | swift | kotlin
deriving Repr, DecidableEq

/-- Key iteration order of LANGUAGE_MARKERS, the fixed classification
priority order. -/
def languageOrder : List Language :=
  [.node, .python, .rust, .go, .php, .ruby, .dart, .swift, .kotlin]

/-- The `files` marker lists of LANGUAGE_MARKERS. -/
def markerFiles : Language → List String
  | .node => ["package.json"]
  | .python => ["requirements.txt", "pyproject.toml", "Pipfile", "setup.py"]
  | .rust => ["Cargo.toml"]
  | .go => ["go.mod"]
  | .php => ["composer.json"]
  | .ruby => ["Gemfile"]
  | .dart => ["pubspec.yaml"]
  | .swift => ["Package.swift"]
  | .kotlin => ["build.gradle.kts", "build.gradle"]

/-- The `name` display names of LANGUAGE_MARKERS. -/
def languageName : Language → String
  | .node => "Node.js"
  | .python => "Python"
  | .rust => "Rust"
  | .go => "Go"
  | .php => "PHP"
  | .ruby => "Ruby"
  | .dart => "Dart/Flutter"
  | .swift => "Swift"
  | .kotlin => "Kotlin/Java"

/-- The `updateCmd` templates of LANGUAGE_MARKERS. -/
def updateCmdOf : Language → String
  | .node => "{pm} update"
  | .python => "pip install --upgrade {packages}"
  | .rust => "cargo update"
  | .go => "go get -u ./..."
  | .php => "composer update"
  | .ruby => "bundle update"
  | .dart => "dart pub upgrade"
  | .swift => "swift package update"
  | .kotlin => "./gradlew dependencyUpdates"

/-- The `updateLatestCmd` templates of LANGUAGE_MARKERS. -/
def updateLatestCmdOf : Language → String
  | .node => "{pm} update --latest"
  | .python => "pip install --upgrade {packages}"
  | .rust => "cargo update"
  | .go => "go get -u ./..."
  | .php => "composer update --with-all-dependencies"
  | .ruby => "bundle update"
  | .dart => "dart pub upgrade --major-versions"
  | .swift => "swift package update"
  | .kotlin => "./gradlew dependencyUpdates -Drevision=release"

/-- The `auditCmd` templates of LANGUAGE_MARKERS (null for Dart, Swift and
Kotlin). -/
def auditCmdOf : Language → Option String
  | .node => some "{pm} audit --json"
  | .python => some "pip audit --format=json"
  | .rust => some "cargo audit --json"
  | .go => some "govulncheck -json ./..."
  | .php => some "composer audit --format=json"
  | .ruby => some "bundle-audit check --format json"
  | .dart => none
  | .swift => none
  | .kotlin => none

/-- One classified project (`ProjectInfo` in types.ts, whose fields are
the literal returned by getProjectInfo). -/
structure ProjectInfo where
  name : String
  path : String
  language : Language
  framework : String
  packageManager : PackageManager
  nodeVersion : Option String := none
  dependencies : List (String × String) := []
  devDependencies : List (String × String) := []
deriving Repr, DecidableEq

/-- The effectful surroundings of one project directory: shell and
filesystem oracles, all paths relative to the project directory.
`runResult` returning `Except.error` models the `run` helper throwing
(non-zero exit with empty stdout), which every parser catches;
`jsonParse` returning `none` models a `JSON.parse` exception. -/
structure Env where
  cmdExists : String → Bool
  runResult : String → Except String String
  jsonParse : String → Option Json
  fileExists : String → Bool
  readFile : String → Option String
  dirEntries : List String
  dirPath : String
  dirBase : String

/-- Replacement of the first occurrence of a pattern, as JavaScript's
String#replace with a string pattern. -/
def replaceFirst (s pat repl : String) : String :=
  match jsSplitOn s pat with
  | [] => s
  | [_] => s
  | x :: rest => x ++ repl ++ String.intercalate pat rest

/-- The Go parser's `Path.split("/").slice(-2).join("/")`: the last two
path components. -/
def lastTwoPath (p : String) : String :=
  let parts := jsSplitOn p "/"
  String.intercalate "/" (parts.drop (parts.length - 2))

/-- Substring test (used only in theorem statements, over a non-empty
pattern). -/
def strContains (s pat : String) : Bool :=
  (jsSplitOn s pat).length > 1

/-! ## Outdated resolver: the nine ecosystem parsers (project.ts 237-486) -/

/-- getOutdatedNpm: run `{pm} outdated --json`; an array payload is folded
into entries with their JavaScript `||` fallbacks; an object payload is the
mapping itself (returned verbatim in the source, so its fields are rendered
here unvalidated); any run or parse failure degrades to the empty
mapping.  A JSON payload that is neither an array nor an object is returned
verbatim by the source and never enumerates as entries downstream, so it is
collapsed to the empty mapping. -/
def getOutdatedNpm (env : Env) (pm : PackageManager) : OutdatedMap :=
  match env.runResult (pmName pm ++ " outdated --json") with
  | .error _ => []
  | .ok raw =>
    if jsTrim raw = "" then []
    else
      match env.jsonParse raw with
      | none => []
      | some (.arr items) =>
        items.foldl (fun acc item =>
          let key :=
            if fieldTruthy item "name" then fieldStr item "name"
            else jsStrOpt (item.getField "package")
          jsInsert acc key
            { current := fieldOr item "current" "?"
              wanted :=
                if fieldTruthy item "wanted" then fieldStr item "wanted"
                else fieldOr item "current" "?"
              latest := fieldOr item "latest" "?"
              type := (item.getField "dependencyType").map Json.jsStr }) []
      | some (.obj fields) =>
        fields.foldl (fun acc kv =>
          jsInsert acc kv.1
            { current := fieldStr kv.2 "current"
              wanted := fieldStr kv.2 "wanted"
              latest := fieldStr kv.2 "latest"
              type := (kv.2.getField "type").map Json.jsStr }) []
      | some _ => []

/-- getOutdatedPip: skip when neither pip binary exists, else run the
listing with pip3 preferred; wanted = latest.  A JSON payload that is not
an array makes the source's for..of throw into the catch (the exotic case
of a JSON string, which JavaScript iterates characterwise into garbage
entries, is not modelled). -/
def getOutdatedPip (env : Env) : OutdatedMap :=
  if !env.cmdExists "pip" && !env.cmdExists "pip3" then []
  else
    let pipCmd := if env.cmdExists "pip3" then "pip3" else "pip"
    match env.runResult (pipCmd ++ " list --outdated --format=json") with
    | .error _ => []
    | .ok raw =>
      if jsTrim raw = "" then []
      else
        match env.jsonParse raw with
        | some (.arr items) =>
          items.foldl (fun acc item =>
            jsInsert acc (fieldStr item "name")
              { current := fieldStr item "version"
                wanted := fieldStr item "latest_version"
                latest := fieldStr item "latest_version" }) []
        | _ => []

/-- getOutdatedCargo: requires the cargo binary and the cargo-outdated
companion; keeps a dependency only when its project version differs from
its latest (the source compares the raw JSON fields with strict
inequality; this model compares their string renderings, which agree on
the string-valued fields the tool emits).  Without cargo-outdated the
source's fallback is a bare empty mapping. -/
def getOutdatedCargo (env : Env) : OutdatedMap :=
  if !env.cmdExists "cargo" then []
  else if env.cmdExists "cargo-outdated" then
    match env.runResult "cargo outdated --format json" with
    | .error _ => []
    | .ok raw =>
      if jsTrim raw = "" then []
      else
        match env.jsonParse raw with
        | none => []
        | some parsed =>
          let deps := match parsed.getField "dependencies" with
            | some (.arr ds) => ds
            | _ => []
          deps.foldl (fun acc dep =>
            if fieldStr dep "project" != fieldStr dep "latest" then
              jsInsert acc (fieldStr dep "name")
                { current := fieldStr dep "project"
                  wanted := fieldStr dep "compat"
                  latest := fieldStr dep "latest" }
            else acc) []
  else []

/-- The Go listing's fragment split: `raw.split("\n}\n")`, dropping blank
fragments, trimming, and restoring the closing brace. -/
def goFragments (raw : String) : List String :=
  ((jsSplitOn raw "\n\x7d\n").filter (fun s => jsTrim s != "")).map (fun s =>
    let t := jsTrim s
    if strEndsWith t "\x7d" then t else t ++ "\x7d")

/-- Processing of one Go fragment: parse it independently, silently
skipping on failure; only fragments whose object carries truthy Update and
Version fields (and a string Path - a non-string Path makes the source
throw into the per-fragment catch) produce an entry. -/
def goStep (parse : String → Option Json) (acc : OutdatedMap)
    (objStr : String) : OutdatedMap :=
  match parse objStr with
  | none => acc
  | some parsed =>
    if fieldTruthy parsed "Update" && fieldTruthy parsed "Version" then
      match parsed.getField "Path" with
      | some (.str p) =>
        jsInsert acc (lastTwoPath p)
          { current := fieldStr parsed "Version"
            wanted := jsStrOpt ((parsed.getField "Update").bind (·.getField "Version"))
            latest := jsStrOpt ((parsed.getField "Update").bind (·.getField "Version")) }
      | _ => acc
    else acc

/-- getOutdatedGo: requires the go binary; the listing emits back-to-back
JSON objects, split and parsed fragmentwise. -/
def getOutdatedGo (env : Env) : OutdatedMap :=
  if !env.cmdExists "go" then []
  else
    match env.runResult "go list -m -u -json all" with
    | .error _ => []
    | .ok raw =>
      if jsTrim raw = "" then []
      else (goFragments raw).foldl (goStep env.jsonParse) []

/-- getOutdatedComposer: requires the composer binary, direct dependencies
only; keeps an entry only when installed version differs from latest (raw
strict inequality in the source, compared here on renderings). -/
def getOutdatedComposer (env : Env) : OutdatedMap :=
  if !env.cmdExists "composer" then []
  else
    match env.runResult "composer outdated --format=json --direct" with
    | .error _ => []
    | .ok raw =>
      if jsTrim raw = "" then []
      else
        match env.jsonParse raw with
        | none => []
        | some parsed =>
          let items := match parsed.getField "installed" with
            | some (.arr xs) => xs
            | _ => []
          items.foldl (fun acc item =>
            if fieldStr item "version" != fieldStr item "latest" then
              jsInsert acc (fieldStr item "name")
                { current := fieldStr item "version"
                  wanted := fieldStr item "latest"
                  latest := fieldStr item "latest" }
            else acc) []

/-- Leftmost match of the gem line pattern
`(\S+)\s+\(newest\s+(\S+),\s+installed\s+(\S+)` over the line's
whitespace-separated tokens: a name token, the literal "(newest" token, a
version token whose final character is the matched comma (the capture is
everything before it and must be non-empty), the literal "installed"
token, and the installed-version token (captured whole - the pattern has
no closing delimiter). -/
def gemScan : List String → Option (String × String × String)
  | n :: p :: v1 :: ins :: v2 :: rest =>
    if p = "(newest" && strEndsWith v1 "," && strDropRight v1 1 != "" && ins = "installed" then
      some (n, strDropRight v1 1, v2)
    else gemScan (p :: v1 :: ins :: v2 :: rest)
  | _ => none

/-- Whitespace tokenization of one line of bundler output. -/
def gemTokens (line : String) : List String :=
  ((splitPredAux (fun c => c.isWhitespace) line.toList []).map String.mk).filter (fun t => t != "")

/-- getOutdatedGem: requires the bundle binary; line-oriented output,
non-matching lines skipped; wanted = latest = newest, current =
installed. -/
def getOutdatedGem (env : Env) : OutdatedMap :=
  if !env.cmdExists "bundle" then []
  else
    match env.runResult "bundle outdated --parseable" with
    | .error _ => []
    | .ok raw =>
      if jsTrim raw = "" then []
      else
        (jsSplitOn raw "\n").foldl (fun acc line =>
          match gemScan (gemTokens line) with
          | some (n, newest, installed) =>
            jsInsert acc n { current := installed, wanted := newest, latest := newest }
          | none => acc) []

/-- getOutdatedPub: requires dart or flutter, preferring the
flutter-wrapped command; an entry needs truthy current.version and
latest.version that differ (raw strict inequality in the source, compared
here on renderings); wanted prefers a resolvable version. -/
def getOutdatedPub (env : Env) : OutdatedMap :=
  if !env.cmdExists "dart" && !env.cmdExists "flutter" then []
  else
    let cmd := if env.cmdExists "flutter" then "flutter pub outdated --json"
      else "dart pub outdated --json"
    match env.runResult cmd with
    | .error _ => []
    | .ok raw =>
      if jsTrim raw = "" then []
      else
        match env.jsonParse raw with
        | none => []
        | some parsed =>
          let pkgs := match parsed.getField "packages" with
            | some (.arr xs) => xs
            | _ => []
          pkgs.foldl (fun acc pkg =>
            let cur := (pkg.getField "current").bind (·.getField "version")
            let lat := (pkg.getField "latest").bind (·.getField "version")
            if jsTruthy cur && jsTruthy lat && jsStrOpt cur != jsStrOpt lat then
              jsInsert acc (fieldStr pkg "package")
                { current := jsStrOpt cur
                  wanted :=
                    let res := (pkg.getField "resolvable").bind (·.getField "version")
                    if jsTruthy res then jsStrOpt res else jsStrOpt lat
                  latest := jsStrOpt lat }
            else acc) []

/-- Name of one resolved Swift pin: `pin.identity || pin.package ||
pin.repositoryURL?.split("/").pop()?.replace(".git", "")`.  A
repositoryURL that is neither nullish nor a string makes the source throw
(caught by the enclosing try, discarding the whole mapping), modelled as
`Except.error`; `none` is a falsy name, which skips the pin. -/
def swiftPinName (pin : Json) : Except Unit (Option String) :=
  if fieldTruthy pin "identity" then .ok (some (fieldStr pin "identity"))
  else if fieldTruthy pin "package" then .ok (some (fieldStr pin "package"))
  else
    match pin.getField "repositoryURL" with
    | none => .ok none
    | some .null => .ok none
    | some (.str u) =>
      let nm := replaceFirst ((jsSplitOn u "/").getLastD "") ".git" ""
      .ok (if nm = "" then none else some nm)
    | some _ => .error ()

/-- Version of one resolved Swift pin: `pin.state?.version ||
pin.state?.revision?.slice(0, 8)`; a revision that is neither nullish nor
a string makes the source throw. -/
def swiftPinVersion (pin : Json) : Except Unit (Option String) :=
  let state := pin.getField "state"
  let ver := state.bind (·.getField "version")
  if jsTruthy ver then .ok (some (jsStrOpt ver))
  else
    match state.bind (·.getField "revision") with
    | none => .ok none
    | some .null => .ok none
    | some (.str r) => .ok (if strTake r 8 = "" then none else some (strTake r 8))
    | some _ => .error ()

/-- One step of the Swift pin loop; `none` is an exception in flight,
which abandons all accumulated entries (the source's catch returns the
empty mapping). -/
def swiftStep (acc : Option OutdatedMap) (pin : Json) : Option OutdatedMap :=
  match acc with
  | none => none
  | some m =>
    match swiftPinName pin, swiftPinVersion pin with
    | .error _, _ => none
    | .ok _, .error _ => none
    | .ok (some n), .ok (some v) =>
      some (jsInsert m n { current := v, wanted := v, latest := v })
    | .ok _, .ok _ => some m

/-- getOutdatedSwift: requires the swift binary and a Package.resolved
file; reads the resolved pins (v2 `pins` or v1 `object.pins`) and reports
each pin's version as simultaneously current, wanted and latest. -/
def getOutdatedSwift (env : Env) : OutdatedMap :=
  if !env.cmdExists "swift" then []
  else if !env.fileExists "Package.resolved" then []
  else
    match env.readFile "Package.resolved" with
    | none => []
    | some content =>
      match env.jsonParse content with
      | none => []
      | some resolved =>
        let pinsVal :=
          if jsTruthy (resolved.getField "pins") then resolved.getField "pins"
          else (resolved.getField "object").bind (·.getField "pins")
        let pins := match pinsVal with
          | some (.arr xs) => xs
          | _ => []
        (pins.foldl swiftStep (some [])).getD []

/-- getOutdatedGradle: requires a project gradlew wrapper or the gradle
binary; invokes the update-check task, then reads the JSON report file the
versions plugin leaves on disk, returning empty when it is absent. -/
def getOutdatedGradle (env : Env) : OutdatedMap :=
  if !env.fileExists "gradlew" && !env.cmdExists "gradle" then []
  else
    let cmd := if env.fileExists "gradlew"
      then "./gradlew dependencyUpdates -Drevision=release --output-formatter json"
      else "gradle dependencyUpdates -Drevision=release --output-formatter json"
    match env.runResult cmd with
    | .error _ => []
    | .ok _ =>
      if !env.fileExists "build/dependencyUpdates/report.json" then []
      else
        match env.readFile "build/dependencyUpdates/report.json" with
        | none => []
        | some content =>
          match env.jsonParse content with
          | none => []
          | some report =>
            let deps := match (report.getField "outdated").bind (·.getField "dependencies") with
              | some (.arr xs) => xs
              | _ => []
            deps.foldl (fun acc dep =>
              let nm := if fieldTruthy dep "group"
                then fieldStr dep "group" ++ ":" ++ fieldStr dep "name"
                else fieldStr dep "name"
              let avail := dep.getField "available"
              let rel := avail.bind (·.getField "release")
              let mil := avail.bind (·.getField "milestone")
              let w := if jsTruthy rel then jsStrOpt rel
                else if jsTruthy mil then jsStrOpt mil
                else jsStrOpt (dep.getField "version")
              jsInsert acc nm
                { current := fieldOr dep "version" "?"
                  wanted := w
                  latest := w }) []

/-- getOutdated: dispatch on the ecosystem's parseOutdated strategy tag
(one tag per language in LANGUAGE_MARKERS, so the dispatch is by
language). -/
def getOutdated (env : Env) (info : ProjectInfo) : OutdatedMap :=
  match info.language with
  | .node => getOutdatedNpm env info.packageManager
  | .python => getOutdatedPip env
  | .rust => getOutdatedCargo env
  | .go => getOutdatedGo env
  | .php => getOutdatedComposer env
  | .ruby => getOutdatedGem env
  | .dart => getOutdatedPub env
  | .swift => getOutdatedSwift env
  | .kotlin => getOutdatedGradle env

/-! ## Version comparator (project.ts 514-518) -/

/-- The leading major token of a version string: strip the longest leading
run of non-digit characters (the regex `^[^0-9]*`), then take the part
before the first dot. -/
def majorToken (s : String) : String :=
  (jsSplitOn (String.mk ((s.toList).dropWhile (fun c => !c.isDigit))) ".").headD ""

/-- isMajorUpdate: the major tokens differ and neither is empty. -/
def isMajorUpdate (current latest : String) : Bool :=
  majorToken current != majorToken latest
    && majorToken current != "" && majorToken latest != ""

/-! ## Project classifier (project.ts 97-212, constants.ts tables) -/

/-- detectLanguage: the first ecosystem in the registry order with any
marker file present; node is the fallthrough default. -/
def detectLanguage (env : Env) : Language :=
  (languageOrder.find? (fun l => (markerFiles l).any env.fileExists)).getD .node

/-- detectPackageManager: lockfile presence in fixed priority order,
npm the default. -/
def detectPackageManager (env : Env) : PackageManager :=
  if env.fileExists "bun.lockb" || env.fileExists "bun.lock" then .bun
  else if env.fileExists "pnpm-lock.yaml" then .pnpm
  else if env.fileExists "yarn.lock" then .yarn
  else .npm

/-- The FRAMEWORK_DETECTORS table of constants.ts, in key order. -/
def frameworkDetectors : List (String × List String) :=
  [("SvelteKit", ["svelte.config.js", "svelte.config.ts"]),
   ("Next.js", ["next.config.js", "next.config.ts", "next.config.mjs"]),
   ("Nuxt", ["nuxt.config.ts", "nuxt.config.js"]),
   ("Astro", ["astro.config.mjs", "astro.config.ts"]),
   ("Remix", ["remix.config.js", "remix.config.ts"]),
   ("SolidStart", ["app.config.ts", "app.config.js"]),
   ("Django", ["manage.py"]),
   ("Flask", ["wsgi.py"]),
   ("Laravel", ["artisan"]),
   ("Xcode/Swift", ["*.xcodeproj", "*.xcworkspace"]),
   ("Android/Kotlin", ["settings.gradle.kts", "settings.gradle"])]

/-- One detector file test: a `*.`-pattern matches any directory entry
with that extension, anything else is an existence check. -/
def detectorFileHit (env : Env) (f : String) : Bool :=
  if strStartsWith f "*." then
    env.dirEntries.any (fun entry => strEndsWith entry (strDrop f 1))
  else env.fileExists f

/-- The dependency-key sniff order for Node frameworks (specific before
generic), paired with the framework each key detects. -/
def nodeSniffOrder : List (String × String) :=
  [("solid-start", "SolidStart"), ("solid-js", "Solid.js"),
   ("@sveltejs/kit", "SvelteKit"), ("svelte", "Svelte"),
   ("next", "Next.js"), ("react", "React"), ("vue", "Vue"),
   ("express", "Express"), ("fastify", "Fastify"), ("hono", "Hono")]

/-- The raw dependency fields of a parsed package.json, merged with
devDependencies overriding (the object spread); a field that is not an
object contributes nothing. -/
def allDepsJson (pkg : Json) : List (String × Json) :=
  let d := match pkg.getField "dependencies" with
    | some (.obj fs) => fs
    | _ => []
  let dd := match pkg.getField "devDependencies" with
    | some (.obj fs) => fs
    | _ => []
  dd.foldl (fun acc kv => jsInsert acc kv.1 kv.2) d

/-- Truthiness of a merged dependency-map entry (the source's
`if (allDeps[key])`). -/
def depTruthy (deps : List (String × Json)) (k : String) : Bool :=
  match (deps.find? (fun e => e.1 = k)).map (·.2) with
  | some j => j.truthy
  | none => false

/-- detectFramework: first the config-file table (glob entries against the
directory listing), then for Node the ordered dependency-key sniff over
the merged dependency maps, else the language display name. -/
def detectFramework (env : Env) : String :=
  match frameworkDetectors.find? (fun d => d.2.any (detectorFileHit env)) with
  | some d => d.1
  | none =>
    let lang := detectLanguage env
    let sniff : Option String :=
      if lang = .node then
        match env.readFile "package.json" with
        | none => none
        | some s =>
          match env.jsonParse s with
          | none => none
          | some pkg =>
            (nodeSniffOrder.find? (fun kv => depTruthy (allDepsJson pkg) kv.1)).map (·.2)
      else none
    match sniff with
    | some f => f
    | none => languageName lang

/-- Rendering of one manifest dependency object into the string map the
project record stores (`pkg.dependencies || {}`; a non-object field
contributes nothing). -/
def jsonDepsField (pkg : Json) (k : String) : List (String × String) :=
  match pkg.getField k with
  | some (.obj fs) => fs.foldl (fun acc kv => jsInsert acc kv.1 kv.2.jsStr) []
  | _ => []

/-- Dependency-name extraction from one requirements.txt line: the regex
`^([a-zA-Z0-9_-]+)` applied to the trimmed line (while the comment test
`line.startsWith("#")` inspects the untrimmed line, as in the source). -/
def parsePythonDeps (content : String) : List (String × String) :=
  (jsSplitOn content "\n").foldl (fun acc line =>
    let tok := String.mk ((jsTrim line).toList.takeWhile (fun c =>
      c.isAlpha || c.isDigit || c = '_' || c = '-'))
    if tok != "" && !strStartsWith line "#" then jsInsert acc tok "*" else acc) []

/-- Match of the Cargo.toml name pattern at the head of the character
list: the literal `name`, optional whitespace, `=`, optional whitespace,
then a quoted non-empty capture. -/
def cargoNameAt (l : List Char) : Option String :=
  match l with
  | 'n' :: 'a' :: 'm' :: 'e' :: rest =>
    match rest.dropWhile (fun c => c.isWhitespace) with
    | '=' :: r2 =>
      match r2.dropWhile (fun c => c.isWhitespace) with
      | '"' :: r4 =>
        let cap := r4.takeWhile (fun c => c != '"')
        if cap.length > 0 && r4.drop cap.length != [] then some (String.mk cap)
        else none
      | _ => none
    | _ => none
  | _ => none

/-- Leftmost match of the Cargo.toml pattern `name\s*=\s*"([^"]+)"`. -/
def cargoNameScan : List Char → Option String
  | [] => none
  | c :: rest =>
    match cargoNameAt (c :: rest) with
    | some n => some n
    | none => cargoNameScan rest

/-- Match of the go.mod module pattern at the head of the character list:
the literal `module`, at least one whitespace character, then a non-empty
run of non-whitespace. -/
def goModuleAt (l : List Char) : Option String :=
  match l with
  | 'm' :: 'o' :: 'd' :: 'u' :: 'l' :: 'e' :: rest =>
    if (rest.takeWhile (fun c => c.isWhitespace)).length = 0 then none
    else
      let cap := (rest.dropWhile (fun c => c.isWhitespace)).takeWhile
        (fun c => !c.isWhitespace)
      if cap.length > 0 then some (String.mk cap) else none
  | _ => none

/-- Leftmost match of the go.mod pattern `module\s+(\S+)`. -/
def goModuleScan : List Char → Option String
  | [] => none
  | c :: rest =>
    match goModuleAt (c :: rest) with
    | some n => some n
    | none => goModuleScan rest

/-- The manifest-derived enrichment of one project record: display name,
dependency maps and runtime-version constraint, with every parse failure
degrading to the defaults (directory basename, empty maps). -/
def manifestData (env : Env) (lang : Language) :
    String × List (String × String) × List (String × String) × Option String :=
  let base := env.dirBase
  match lang with
  | .node =>
    match env.readFile "package.json" with
    | none => (base, [], [], none)
    | some s =>
      match env.jsonParse s with
      | none => (base, [], [], none)
      | some pkg =>
        (if fieldTruthy pkg "name" then fieldStr pkg "name" else base,
         jsonDepsField pkg "dependencies",
         jsonDepsField pkg "devDependencies",
         ((pkg.getField "engines").bind (·.getField "node")).map Json.jsStr)
  | .python =>
    if env.fileExists "requirements.txt" then
      match env.readFile "requirements.txt" with
      | none => (base, [], [], none)
      | some content => (base, parsePythonDeps content, [], none)
    else (base, [], [], none)
  | .rust =>
    match env.readFile "Cargo.toml" with
    | none => (base, [], [], none)
    | some content =>
      match cargoNameScan content.toList with
      | some n => (n, [], [], none)
      | none => (base, [], [], none)
  | .go =>
    match env.readFile "go.mod" with
    | none => (base, [], [], none)
    | some content =>
      match goModuleScan content.toList with
      | some m =>
        let n := (jsSplitOn m "/").getLastD ""
        (if n != "" then n else base, [], [], none)
      | none => (base, [], [], none)
  | .php =>
    match env.readFile "composer.json" with
    | none => (base, [], [], none)
    | some s =>
      match env.jsonParse s with
      | none => (base, [], [], none)
      | some composer =>
        (if fieldTruthy composer "name" then fieldStr composer "name" else base,
         jsonDepsField composer "require",
         jsonDepsField composer "require-dev",
         none)
  | _ => (base, [], [], none)

/-- getProjectInfo: classification requires at least one marker file of
the detected language; the record is then assembled from the manifest
enrichment (which never fails), framework detection and - for Node only -
package-manager detection. -/
def getProjectInfo (env : Env) : Option ProjectInfo :=
  let lang := detectLanguage env
  if !(markerFiles lang).any env.fileExists then none
  else
    let md := manifestData env lang
    some
      { name := md.1
        path := env.dirPath
        language := lang
        framework := detectFramework env
        packageManager := if lang = .node then detectPackageManager env else .npm
        nodeVersion := md.2.2.2
        dependencies := md.2.1
        devDependencies := md.2.2.1 }

/-! ## Framework version, security audit, health score (project.ts 520-602) -/

/-- Lookup in a merged string dependency map with JavaScript `|| null`
semantics (an empty-string value is falsy, hence absent). -/
def depLookup (deps : List (String × String)) (k : String) : Option String :=
  match (deps.find? (fun e => e.1 = k)).map (·.2) with
  | some v => if v != "" then some v else none
  | none => none

/-- getFrameworkVersion: merged direct and dev dependencies, then a
framework-specific key chain. -/
def getFrameworkVersion (info : ProjectInfo) : Option String :=
  let allDeps := info.devDependencies.foldl
    (fun acc kv => jsInsert acc kv.1 kv.2) info.dependencies
  let g := fun k => depLookup allDeps k
  match info.framework with
  | "SvelteKit" => (g "@sveltejs/kit").orElse (fun _ => g "svelte")
  | "Svelte" => g "svelte"
  | "Next.js" => g "next"
  | "React" => g "react"
  | "Nuxt" => g "nuxt"
  | "Vue" => g "vue"
  | "Astro" => g "astro"
  | "SolidStart" => (g "solid-start").orElse (fun _ => g "solid-js")
  | "Solid.js" => g "solid-js"
  | _ => none

/-- One vulnerability count field (`v.high || 0`); the counts the audit
tools emit are numbers, so a truthy non-number is collapsed to 0. -/
def vulnCount (j : Json) (k : String) : Int :=
  match j.getField k with
  | some (.num n) => n
  | _ => 0

/-- getSecurityIssues: no audit command means 0; the command template has
its package-manager placeholder substituted, its first word is pre-checked
for existence, and any run or parse failure or unrecognized shape yields
0; the npm shape sums high, critical and moderate counts. -/
def getSecurityIssues (env : Env) (info : ProjectInfo) : Int :=
  match auditCmdOf info.language with
  | none => 0
  | some tmpl =>
    let cmd := jsReplaceAll tmpl "{pm}" (pmName info.packageManager)
    if !env.cmdExists ((jsSplitOn cmd " ").headD "") then 0
    else
      match env.runResult cmd with
      | .error _ => 0
      | .ok raw =>
        match env.jsonParse raw with
        | none => 0
        | some parsed =>
          match (parsed.getField "metadata").bind (·.getField "vulnerabilities") with
          | some v =>
            if v.truthy then
              vulnCount v "high" + vulnCount v "critical" + vulnCount v "moderate"
            else 0
          | none => 0

/-- The fixed lockfile list of computeHealthReport, covering all nine
ecosystems. -/
def lockfileNames : List String :=
  ["pnpm-lock.yaml", "package-lock.json", "yarn.lock", "bun.lockb",
   "Cargo.lock", "go.sum", "composer.lock", "Gemfile.lock", "pubspec.lock",
   "Pipfile.lock", "Package.resolved", "gradle.lockfile"]

/-- The health report returned by computeHealthReport (the HealthReport
shape of types.ts, visible from the returned literal). -/
structure HealthReport where
  project : String
  language : Language
  framework : String
  frameworkVersion : Option String
  nodeVersion : Option String
  packageManager : PackageManager
  lockfileExists : Bool
  outdatedCount : Nat
  majorUpdates : Nat
  securityIssues : Int
  score : Int
  recommendations : List String
deriving Repr, DecidableEq

/-- computeHealthReport: resolve the outdated mapping, count entries and
major updates, check the lockfile list, run the audit, and fold the
deductions into a score clamped to 0..100, with threshold-driven
recommendations. -/
def computeHealthReport (env : Env) (info : ProjectInfo) : HealthReport :=
  let outdated := getOutdated env info
  let outdatedCount := outdated.length
  let majorUpdates :=
    (outdated.filter (fun e => isMajorUpdate e.2.current e.2.latest)).length
  let lockfileExists := lockfileNames.any env.fileExists
  let securityIssues := getSecurityIssues env info
  let score1 : Int := 100 - min ((outdatedCount : Int) * 3) 40
  let score2 : Int := score1 - (majorUpdates : Int) * 10
  let score3 : Int := if lockfileExists then score2 else score2 - 15
  let score4 : Int := score3 - min (securityIssues * 5) 30
  let score : Int := max 0 (min 100 score4)
  { project := info.name
    language := info.language
    framework := info.framework
    frameworkVersion := getFrameworkVersion info
    nodeVersion := info.nodeVersion
    packageManager := info.packageManager
    lockfileExists := lockfileExists
    outdatedCount := outdatedCount
    majorUpdates := majorUpdates
    securityIssues := securityIssues
    score := score
    recommendations :=
      (if !lockfileExists then ["Missing lockfile. Run install to generate one."] else [])
      ++ (if majorUpdates > 0 then
            [toString majorUpdates ++ " major update(s). Review changelogs before updating."]
          else [])
      ++ (if securityIssues > 0 then
            [toString securityIssues ++ " security issue(s). Run audit fix."]
          else [])
      ++ (if outdatedCount > 10 then
            ["Many outdated packages. Start with minor/patch updates."]
          else [])
      ++ (if score = 100 then ["All good! Dependencies are up to date."] else []) }

/-! ## Update command builder (project.ts 606-640) -/

/-- buildUpdateCommand: for Node, branch on package manager (pnpm, yarn
and bun use their native update verbs; the npm default composes the
npm-check-updates range bump, constrained to target minor for the minor
level, chained before a plain install); for Python, upgrade the given
subset or the requirements manifest; every other ecosystem picks its
minor or latest template. -/
def buildUpdateCommand (info : ProjectInfo) (packages : Option String)
    (level : String) : String :=
  if info.language = .node then
    let pkgList := (packages.map jsTrim).getD ""
    match info.packageManager with
    | .pnpm =>
      if pkgList != "" then
        if level = "latest" then "pnpm update " ++ pkgList ++ " --latest"
        else "pnpm update " ++ pkgList
      else
        if level = "latest" then "pnpm update --latest" else "pnpm update"
    | .yarn =>
      if pkgList != "" then
        if level = "latest" then "yarn upgrade " ++ pkgList ++ " --latest"
        else "yarn upgrade " ++ pkgList
      else
        if level = "latest" then "yarn upgrade --latest" else "yarn upgrade"
    | .bun =>
      if pkgList != "" then "bun update " ++ pkgList else "bun update"
    | .npm =>
      if level = "latest" then
        if pkgList != "" then
          "npx -y npm-check-updates -u "
            ++ String.intercalate " " (jsSplitOn pkgList " ") ++ " && npm install"
        else "npx -y npm-check-updates -u && npm install"
      else
        if pkgList != "" then
          "npx -y npm-check-updates -u --target minor "
            ++ String.intercalate " " (jsSplitOn pkgList " ") ++ " && npm install"
        else "npx -y npm-check-updates -u --target minor && npm install"
  else if info.language = .python then
    let pkgList := (packages.map jsTrim).getD ""
    if pkgList != "" then "pip install --upgrade " ++ pkgList
    else "pip install --upgrade -r requirements.txt"
  else if level = "latest" then updateLatestCmdOf info.language
  else updateCmdOf info.language

/-! ## Cache store (project.ts 644-668) and background checker (checker.ts) -/

/-- CACHE_MAX_AGE_MS of constants.ts: six hours. -/
def CACHE_MAX_AGE_MS : Int := 6 * 60 * 60 * 1000

/-- SERVER_VERSION of constants.ts. -/
def SERVER_VERSION : String := "4.0.0"

/-- One persisted scan row (the CacheEntry shape of types.ts, visible from
the literal built in checker.ts). -/
structure CacheEntry where
  project : String
  path : String
  language : Language
  framework : String
  outdatedCount : Nat
  majorCount : Nat
  securityIssues : Int
  score : Int
  checkedAt : String
deriving Repr, DecidableEq

/-- The persisted cache document (the CacheFile shape of types.ts,
visible from the literal built in writeCache). -/
structure CacheFile where
  version : String
  updatedAt : String
  projects : List CacheEntry
deriving Repr, DecidableEq

/-- The cache file on disk: its parsed JSON document and its modification
time.  The encode and decode through the actual bytes are JSON.stringify
and JSON.parse of the standard library (readCache casts the parsed value
without validation), so the store is modelled at the document level. -/
structure CacheState where
  stored : Option CacheFile
  mtimeMs : Int

/-- writeCache: fully overwrite the store with a versioned, timestamped
snapshot of the given entries. -/
def writeCache (entries : List CacheEntry) (nowIso : String) (nowMs : Int) :
    CacheState :=
  { stored := some { version := SERVER_VERSION, updatedAt := nowIso, projects := entries }
    mtimeMs := nowMs }

/-- readCache: absent file or a file older than the six-hour max age reads
as absent; otherwise the parsed document. -/
def readCache (st : CacheState) (nowMs : Int) : Option CacheFile :=
  match st.stored with
  | none => none
  | some c => if nowMs - st.mtimeMs > CACHE_MAX_AGE_MS then none else some c

/-- The background checker's per-project score (checker.ts 50-53): no
lockfile or security deduction, clamped to 0..100. -/
def checkerScore (outdatedCount majorCount : Nat) : Int :=
  max 0 (min 100 (100 - min ((outdatedCount : Int) * 3) 40 - (majorCount : Int) * 10))

/-- The cache entry one background-scan iteration pushes (checker.ts
41-65): the audit is skipped for speed, so securityIssues is hard-coded
to 0. -/
def checkerEntry (env : Env) (info : ProjectInfo) (nowIso : String) : CacheEntry :=
  let outdated := getOutdated env info
  { project := info.name
    path := info.path
    language := info.language
    framework := info.framework
    outdatedCount := outdated.length
    majorCount := (outdated.filter (fun e => isMajorUpdate e.2.current e.2.latest)).length
    securityIssues := 0
    score := checkerScore outdated.length
      (outdated.filter (fun e => isMajorUpdate e.2.current e.2.latest)).length
    checkedAt := nowIso }

/-- The entry list one whole background scan builds (each project paired
with its directory's environment). -/
def checkerScanEntries (scan : List (Env × ProjectInfo)) (nowIso : String) :
    List CacheEntry :=
  scan.map (fun pe => checkerEntry pe.1 pe.2 nowIso)


/-! ## Concrete fixtures for witnesses and counterexamples -/

/-- An environment in which everything fails: no binaries, every command
throws, nothing parses, no files. -/
def failEnv : Env where
  cmdExists := fun _ => false
  runResult := fun _ => .error "command failed"
  jsonParse := fun _ => none
  fileExists := fun _ => false
  readFile := fun _ => none
  dirEntries := []
  dirPath := "/home/u/proj"
  dirBase := "proj"

/-- A Node project record on the npm default. -/
def nodeInfo : ProjectInfo where
  name := "app"
  path := "/home/u/proj"
  language := .node
  framework := "Node.js"
  packageManager := .npm

/-- A Node project record on pnpm. -/
def pnpmInfo : ProjectInfo :=
  { nodeInfo with packageManager := .pnpm }

/-- A Node project record on yarn. -/
def yarnInfo : ProjectInfo :=
  { nodeInfo with packageManager := .yarn }

/-- A Node project record on bun. -/
def bunInfo : ProjectInfo :=
  { nodeInfo with packageManager := .bun }

/-- A Rust project record. -/
def rustInfo : ProjectInfo :=
  { nodeInfo with language := .rust, framework := "Rust" }

/-- A PHP project record. -/
def phpInfo : ProjectInfo :=
  { nodeInfo with language := .php, framework := "PHP" }

/-- A Dart project record. -/
def dartInfo : ProjectInfo :=
  { nodeInfo with language := .dart, framework := "Dart/Flutter" }

/-- A Swift project record. -/
def swiftInfo : ProjectInfo :=
  { nodeInfo with language := .swift, framework := "Swift" }

/-- A Go project record. -/
def goInfo : ProjectInfo :=
  { nodeInfo with language := .go, framework := "Go" }

/-- An environment whose Swift resolved-pins file yields one pin
(identity "foo" at version 1.0.0). -/
def swiftPinsEnv : Env :=
  { failEnv with
    cmdExists := fun c => c == "swift"
    fileExists := fun f => f == "Package.resolved"
    readFile := fun f => if f == "Package.resolved" then some "RESOLVED" else none
    jsonParse := fun s =>
      if s == "RESOLVED" then
        some (.obj [("pins", .arr [.obj [("identity", .str "foo"),
          ("state", .obj [("version", .str "1.0.0")])]])])
      else none }

/-- An environment whose cargo-outdated listing yields one dependency
going from 1.0.0 to 2.0.0. -/
def cargoEnvW : Env :=
  { failEnv with
    cmdExists := fun c => c == "cargo" || c == "cargo-outdated"
    runResult := fun c =>
      if c == "cargo outdated --format json" then .ok "CARGO" else .error "no"
    jsonParse := fun s =>
      if s == "CARGO" then
        some (.obj [("dependencies", .arr [.obj [("name", .str "serde"),
          ("project", .str "1.0.0"), ("compat", .str "1.0.5"),
          ("latest", .str "2.0.0")]])])
      else none }

/-- An environment whose composer listing yields one direct dependency
going from 2.0.0 to 3.0.0. -/
def composerEnvW : Env :=
  { failEnv with
    cmdExists := fun c => c == "composer"
    runResult := fun c =>
      if c == "composer outdated --format=json --direct" then .ok "COMPOSER"
      else .error "no"
    jsonParse := fun s =>
      if s == "COMPOSER" then
        some (.obj [("installed", .arr [.obj [("name", .str "monolog/monolog"),
          ("version", .str "2.0.0"), ("latest", .str "3.0.0")]])])
      else none }

/-- An environment whose dart pub listing yields one package going from
0.13.0 to 1.0.0. -/
def pubEnvW : Env :=
  { failEnv with
    cmdExists := fun c => c == "dart"
    runResult := fun c =>
      if c == "dart pub outdated --json" then .ok "PUB" else .error "no"
    jsonParse := fun s =>
      if s == "PUB" then
        some (.obj [("packages", .arr [.obj [("package", .str "http"),
          ("current", .obj [("version", .str "0.13.0")]),
          ("latest", .obj [("version", .str "1.0.0")]),
          ("resolvable", .obj [("version", .str "1.0.0")])]])])
      else none }

/-- An environment with no binaries installed whose npm outdated command
would nevertheless produce a one-package listing if invoked. -/
def npmNoBinEnv : Env :=
  { failEnv with
    cmdExists := fun _ => false
    runResult := fun c =>
      if c == "npm outdated --json" then .ok "NPMRAW" else .error "no"
    jsonParse := fun s =>
      if s == "NPMRAW" then
        some (.arr [.obj [("name", .str "express"),
          ("current", .str "4.18.0"), ("wanted", .str "4.19.0"),
          ("latest", .str "5.0.0")]])
      else none }

/-- The Go listing payload of the C5 witness environment: one malformed
fragment followed by one well-formed fragment carrying an Update field. -/
def goRawW : String := "BAD\n\x7d\nGOOD"

/-- An environment whose go listing emits `goRawW`, in which only the
second fragment parses. -/
def goEnvW : Env :=
  { failEnv with
    cmdExists := fun c => c == "go"
    runResult := fun c =>
      if c == "go list -m -u -json all" then .ok goRawW else .error "no"
    jsonParse := fun s =>
      if s == "GOOD\x7d" then
        some (.obj [("Path", .str "github.com/pkg/errors"),
          ("Version", .str "v0.8.0"),
          ("Update", .obj [("Version", .str "v0.9.1")])])
      else none }

/-- An environment containing only a package.json marker (and no readable
or parseable file contents). -/
def pkgOnlyEnv : Env :=
  { failEnv with fileExists := fun f => f == "package.json" }

/-- An environment containing both a package.json and a Cargo.toml
marker. -/
def pkgAndCargoEnv : Env :=
  { failEnv with
    fileExists := fun f => f == "package.json" || f == "Cargo.toml" }

/-- An environment with a package.json marker and an npm lockfile but in
which every command fails (so no outdated packages and no security
issues are observable). -/
def lockedCleanEnv : Env :=
  { failEnv with
    fileExists := fun f => f == "package.json" || f == "package-lock.json" }

/-- A sample persisted entry for the cache round-trip witness. -/
def sampleEntryA : CacheEntry where
  project := "a"
  path := "/a"
  language := .node
  framework := "Node.js"
  outdatedCount := 2
  majorCount := 1
  securityIssues := 0
  score := 84
  checkedAt := "t0"

/-- A second sample persisted entry for the cache round-trip witness. -/
def sampleEntryB : CacheEntry where
  project := "b"
  path := "/b"
  language := .rust
  framework := "Rust"
  outdatedCount := 0
  majorCount := 0
  securityIssues := 0
  score := 100
  checkedAt := "t0"

/-- The health-score formula in the specification's own words (section
4.6): start at 100; subtract 3 per outdated package capped at 40 total;
subtract 10 per major-update package; subtract 15 flat without a
recognized lockfile; subtract 5 per security issue capped at 30 total;
clamp to 0..100.  Stated independently of the embedding, to be compared
with computeHealthReport. -/
def healthScoreSpec (outdatedCount majors : Nat) (lockfile : Bool)
    (security : Int) : Int :=
  max 0 (min 100 (100 - min ((outdatedCount : Int) * 3) 40 - (majors : Int) * 10
    - (if lockfile then 0 else 15) - min (security * 5) 30))

/-- The concatenation of every ecosystem's marker files. -/
def allMarkerFiles : List String :=
  (languageOrder.map markerFiles).flatten

/-- An environment in which every command succeeds but prints nothing
(and no file is readable). -/
def blankOutEnv : Env :=
  { failEnv with runResult := fun _ => .ok "" }

/-- An environment in which every command succeeds with non-empty output
that parses as nothing (the JSON.parse oracle rejects every string). -/
def malformedEnv : Env :=
  { failEnv with runResult := fun _ => .ok "NOT JSON" }

/-- The cargo entry the cargoEnvW listing produces. -/
def serdeEntryW : OutdatedPackage where
  current := "1.0.0"
  wanted := "1.0.5"
  latest := "2.0.0"

/-- The composer entry the composerEnvW listing produces. -/
def monologEntryW : OutdatedPackage where
  current := "2.0.0"
  wanted := "3.0.0"
  latest := "3.0.0"

/-- The pub entry the pubEnvW listing produces. -/
def httpEntryW : OutdatedPackage where
  current := "0.13.0"
  wanted := "1.0.0"
  latest := "1.0.0"

/-- The Swift pin entry the swiftPinsEnv resolved file produces: current,
wanted and latest all carry the pinned version. -/
def fooPinEntryW : OutdatedPackage where
  current := "1.0.0"
  wanted := "1.0.0"
  latest := "1.0.0"

/-- The npm entry the npmNoBinEnv listing produces. -/
def expressEntryW : OutdatedPackage where
  current := "4.18.0"
  wanted := "4.19.0"
  latest := "5.0.0"

/-- The Go entry the goEnvW listing's well-formed fragment produces. -/
def goUpdateEntryW : OutdatedPackage where
  current := "v0.8.0"
  wanted := "v0.9.1"
  latest := "v0.9.1"

/-- The project record classification yields on pkgOnlyEnv: defaults
everywhere, since no manifest is readable. -/
def pkgOnlyRecord : ProjectInfo where
  name := "proj"
  path := "/home/u/proj"
  language := .node
  framework := "Node.js"
  packageManager := .npm


/-! ## General lemmas about mapping construction -/

/-- Membership after a JavaScript object assignment: an element of the
updated map is an original element or the assigned pair. -/
theorem mem_jsInsert {α : Type} {m : List (String × α)} {k : String} {v : α}
    {e : String × α} (h : e ∈ jsInsert m k v) : e ∈ m ∨ e = (k, v) := by
  unfold jsInsert at h
  split at h
  · rcases List.mem_map.mp h with ⟨a, ha, hfa⟩
    by_cases hk : a.1 = k
    · rw [if_pos hk] at hfa
      exact Or.inr hfa.symm
    · rw [if_neg hk] at hfa
      exact Or.inl (hfa ▸ ha)
  · rcases List.mem_append.mp h with h' | h'
    · exact Or.inl h'
    · exact Or.inr (List.mem_singleton.mp h')

/-- Entry-property preservation over a fold whose step either keeps the
accumulator or assigns a pair satisfying the property. -/
theorem foldl_entry_pred {α : Type} (P : String × OutdatedPackage → Prop)
    (step : OutdatedMap → α → OutdatedMap)
    (hstep : ∀ acc x e, e ∈ step acc x → e ∈ acc ∨ P e) :
    ∀ (l : List α) (init : OutdatedMap), (∀ e ∈ init, P e) →
      ∀ e ∈ l.foldl step init, P e := by
  intro l
  induction l with
  | nil => intro init hinit e he; exact hinit e he
  | cons x xs ih =>
    intro init hinit e he
    refine ih (step init x) ?_ e he
    intro e' he'
    rcases hstep init x e' he' with h | h
    · exact hinit e' h
    · exact h

/-- A fold whose step fixes the accumulator on every list element is the
identity. -/
theorem foldl_fixed {α β : Type} (f : β → α → β) :
    ∀ (l : List α), (∀ acc x, x ∈ l → f acc x = acc) → ∀ acc, l.foldl f acc = acc := by
  intro l
  induction l with
  | nil => intro _ acc; rfl
  | cons x xs ih =>
    intro h acc
    rw [List.foldl_cons, h acc x (by simp)]
    exact ih (fun acc y hy => h acc y (by simp [hy])) acc

/-! ## C1: health score formula and bounds -/

/-- C1: computeHealthReport's score is exactly the specification formula
(100, minus 3 per outdated package capped at 40 total, minus 10 per
major-update package uncapped, minus 15 without a recognized lockfile,
minus 5 per security issue capped at 30 total, clamped to 0..100); for
every environment and record the score lies within 0..100; and a report
with zero outdated packages, zero security issues and a lockfile present
scores exactly 100. -/
theorem computeHealthReport_score_spec (env : Env) (info : ProjectInfo) :
    (computeHealthReport env info).score
      = healthScoreSpec (computeHealthReport env info).outdatedCount
          (computeHealthReport env info).majorUpdates
          (computeHealthReport env info).lockfileExists
          (computeHealthReport env info).securityIssues
    ∧ 0 ≤ (computeHealthReport env info).score
    ∧ (computeHealthReport env info).score ≤ 100
    ∧ ((computeHealthReport env info).outdatedCount = 0 →
        (computeHealthReport env info).securityIssues = 0 →
        (computeHealthReport env info).lockfileExists = true →
        (computeHealthReport env info).score = 100) := by
  have hfil : ((getOutdated env info).filter
      (fun e => isMajorUpdate e.2.current e.2.latest)).length
      ≤ (getOutdated env info).length := List.length_filter_le _ _
  simp only [computeHealthReport, healthScoreSpec]
  by_cases h' : lockfileNames.any env.fileExists = true
  · rw [if_pos h', if_pos h']
    refine ⟨by omega, by omega, by omega, ?_⟩
    intro h0 hsec hlock
    omega
  · rw [if_neg h', if_neg h']
    refine ⟨by omega, by omega, by omega, ?_⟩
    intro h0 hsec hlock
    exact absurd hlock h'

/-- Witness for C1: on an environment with a lockfile, no resolvable
outdated packages and no audit tool, the health score is exactly 100. -/
theorem computeHealthReport_score_spec_witness :
    (computeHealthReport lockedCleanEnv nodeInfo).score = 100 :=
  (computeHealthReport_score_spec lockedCleanEnv nodeInfo).2.2.2
    (by decide) (by decide) (by decide)

/-! ## C2: the current-versus-latest membership invariant -/

/-- Every entry of the cargo parser's mapping has current different from
latest, by the parser's explicit filter. -/
theorem cargo_entry_ne {env : Env} {e : String × OutdatedPackage}
    (he : e ∈ getOutdatedCargo env) : e.2.current ≠ e.2.latest := by
  simp only [getOutdatedCargo] at he
  repeat' split at he
  all_goals try exact absurd he (List.not_mem_nil _)
  refine foldl_entry_pred (fun e => e.2.current ≠ e.2.latest) _ ?_ _ [] (by simp) e he
  intro acc dep e' he'
  by_cases hc : (fieldStr dep "project" != fieldStr dep "latest") = true
  · rw [if_pos hc] at he'
    rcases mem_jsInsert he' with h | h
    · exact Or.inl h
    · subst h
      exact Or.inr (bne_iff_ne.mp hc)
  · rw [if_neg hc] at he'
    exact Or.inl he'

/-- Every entry of the composer parser's mapping has current different
from latest, by the parser's explicit filter. -/
theorem composer_entry_ne {env : Env} {e : String × OutdatedPackage}
    (he : e ∈ getOutdatedComposer env) : e.2.current ≠ e.2.latest := by
  simp only [getOutdatedComposer] at he
  repeat' split at he
  all_goals try exact absurd he (List.not_mem_nil _)
  refine foldl_entry_pred (fun e => e.2.current ≠ e.2.latest) _ ?_ _ [] (by simp) e he
  intro acc item e' he'
  by_cases hc : (fieldStr item "version" != fieldStr item "latest") = true
  · rw [if_pos hc] at he'
    rcases mem_jsInsert he' with h | h
    · exact Or.inl h
    · subst h
      exact Or.inr (bne_iff_ne.mp hc)
  · rw [if_neg hc] at he'
    exact Or.inl he'

/-- Every entry of the pub parser's mapping has current different from
latest, by the parser's explicit filter. -/
theorem pub_entry_ne {env : Env} {e : String × OutdatedPackage}
    (he : e ∈ getOutdatedPub env) : e.2.current ≠ e.2.latest := by
  simp only [getOutdatedPub] at he
  repeat' split at he
  all_goals try exact absurd he (List.not_mem_nil _)
  refine foldl_entry_pred (fun e => e.2.current ≠ e.2.latest) _ ?_ _ [] (by simp) e he
  intro acc pkg e' he'
  by_cases hc : (jsTruthy ((pkg.getField "current").bind (fun j => j.getField "version"))
      && jsTruthy ((pkg.getField "latest").bind (fun j => j.getField "version"))
      && (jsStrOpt ((pkg.getField "current").bind (fun j => j.getField "version"))
          != jsStrOpt ((pkg.getField "latest").bind (fun j => j.getField "version")))) = true
  · rw [if_pos hc] at he'
    rcases mem_jsInsert he' with h | h
    · exact Or.inl h
    · subst h
      have := (Bool.and_eq_true _ _).mp hc
      exact Or.inr (bne_iff_ne.mp this.2)
  · rw [if_neg hc] at he'
    exact Or.inl he'

/-- A Swift pin loop that has already thrown yields nothing. -/
theorem swiftStep_none_fold (pins : List Json) :
    pins.foldl swiftStep none = none := by
  induction pins with
  | nil => rfl
  | cons p ps ih => simpa [swiftStep] using ih

/-- Every entry the Swift pin loop accumulates carries one identical
version as current, wanted and latest. -/
theorem swift_fold_pred (pins : List Json) :
    ∀ (m : OutdatedMap),
      (∀ e ∈ m, e.2.current = e.2.latest ∧ e.2.wanted = e.2.latest) →
      ∀ e ∈ (pins.foldl swiftStep (some m)).getD [],
        e.2.current = e.2.latest ∧ e.2.wanted = e.2.latest := by
  induction pins with
  | nil => intro m hm e he; exact hm e he
  | cons p ps ih =>
    intro m hm e he
    rw [List.foldl_cons] at he
    cases hstep : swiftStep (some m) p with
    | none =>
      rw [hstep, swiftStep_none_fold] at he
      exact absurd he (by simp)
    | some m' =>
      rw [hstep] at he
      refine ih m' ?_ e he
      intro e' he'
      rcases hn : swiftPinName p with e0 | nm0
      · simp only [swiftStep, hn] at hstep
        exact Option.noConfusion hstep
      · rcases hv : swiftPinVersion p with e1 | vr0
        · simp only [swiftStep, hn, hv] at hstep
          exact Option.noConfusion hstep
        · rcases nm0 with _ | n
          · simp only [swiftStep, hn, hv] at hstep
            cases hstep
            exact hm e' he'
          · rcases vr0 with _ | v
            · simp only [swiftStep, hn, hv] at hstep
              cases hstep
              exact hm e' he'
            · simp only [swiftStep, hn, hv] at hstep
              cases hstep
              rcases mem_jsInsert he' with h | h
              · exact hm e' h
              · subst h
                exact ⟨rfl, rfl⟩

/-- Every entry of the Swift parser's mapping reports its pinned version
as simultaneously current, wanted and latest. -/
theorem swift_entries_eq {env : Env} {e : String × OutdatedPackage}
    (he : e ∈ getOutdatedSwift env) :
    e.2.current = e.2.latest ∧ e.2.wanted = e.2.latest := by
  simp only [getOutdatedSwift] at he
  repeat' split at he
  all_goals try exact absurd he (List.not_mem_nil _)
  exact swift_fold_pred _ [] (by simp) e he

/-- C2 (amended): the current-versus-latest invariant holds for the
parsers that filter on it - Rust (cargo), PHP (composer) and Dart (pub)
entries always have current different from latest - while the Swift
parser instead reports every pin's version as simultaneously current,
wanted and latest, so its entries always have current equal to latest. -/
theorem outdated_entry_invariants (env : Env) (info : ProjectInfo) :
    (info.language = .rust → ∀ e ∈ getOutdated env info, e.2.current ≠ e.2.latest)
    ∧ (info.language = .php → ∀ e ∈ getOutdated env info, e.2.current ≠ e.2.latest)
    ∧ (info.language = .dart → ∀ e ∈ getOutdated env info, e.2.current ≠ e.2.latest)
    ∧ (info.language = .swift → ∀ e ∈ getOutdated env info,
        e.2.current = e.2.latest ∧ e.2.wanted = e.2.latest) := by
  refine ⟨fun hl e he => ?_, fun hl e he => ?_, fun hl e he => ?_, fun hl e he => ?_⟩ <;>
    simp only [getOutdated, hl] at he
  · exact cargo_entry_ne he
  · exact composer_entry_ne he
  · exact pub_entry_ne he
  · exact swift_entries_eq he

/-- Counterexample to C2 as stated: on a concrete Swift project whose
resolved-pins file holds one pin, the mapping getOutdated returns contains
an entry whose current version equals its latest version. -/
theorem swift_current_equals_latest_counterexample :
    ¬ (∀ e ∈ getOutdated swiftPinsEnv swiftInfo, e.2.current ≠ e.2.latest) := by
  intro h
  exact h ("foo", fooPinEntryW) (by decide) rfl

/-- Witness for C2 (amended): concrete entries produced by the cargo,
composer, pub and Swift parsers, with the invariant instantiated on each. -/
theorem outdated_entry_invariants_witness :
    serdeEntryW.current ≠ serdeEntryW.latest
    ∧ monologEntryW.current ≠ monologEntryW.latest
    ∧ httpEntryW.current ≠ httpEntryW.latest
    ∧ (fooPinEntryW.current = fooPinEntryW.latest
        ∧ fooPinEntryW.wanted = fooPinEntryW.latest) :=
  ⟨(outdated_entry_invariants cargoEnvW rustInfo).1 rfl
      ("serde", serdeEntryW) (by decide),
   (outdated_entry_invariants composerEnvW phpInfo).2.1 rfl
      ("monolog/monolog", monologEntryW) (by decide),
   (outdated_entry_invariants pubEnvW dartInfo).2.2.1 rfl
      ("http", httpEntryW) (by decide),
   (outdated_entry_invariants swiftPinsEnv swiftInfo).2.2.2 rfl
      ("foo", fooPinEntryW) (by decide)⟩

/-! ## C3 and C4: the update command builder -/

/-- C3: for a Node record on the npm default, the builder emits the
two-step npm-check-updates range bump (constrained to target minor for
the minor level, unconstrained for latest, optionally scoped to the
package subset) chained by a shell conjunction before a plain npm
install; on pnpm it emits one of the four native single update commands
and never the two-step form. -/
theorem buildUpdateCommand_npm_vs_pnpm (info : ProjectInfo) (packages : Option String)
    (hlang : info.language = .node) :
    (info.packageManager = .npm →
      (buildUpdateCommand info packages "minor"
          = "npx -y npm-check-updates -u --target minor && npm install"
        ∨ ∃ scope, buildUpdateCommand info packages "minor"
          = "npx -y npm-check-updates -u --target minor " ++ scope ++ " && npm install")
      ∧ (buildUpdateCommand info packages "latest"
          = "npx -y npm-check-updates -u && npm install"
        ∨ ∃ scope, buildUpdateCommand info packages "latest"
          = "npx -y npm-check-updates -u " ++ scope ++ " && npm install"))
    ∧ (info.packageManager = .pnpm → ∀ level,
        buildUpdateCommand info packages level = "pnpm update"
      ∨ buildUpdateCommand info packages level = "pnpm update --latest"
      ∨ (∃ pkgs, buildUpdateCommand info packages level = "pnpm update " ++ pkgs)
      ∨ (∃ pkgs, buildUpdateCommand info packages level
          = "pnpm update " ++ pkgs ++ " --latest")) := by
  constructor
  · intro hpm
    constructor
    · by_cases hp : (packages.map jsTrim).getD "" = ""
      · exact Or.inl (by simp [buildUpdateCommand, hlang, hpm, hp])
      · exact Or.inr ⟨String.intercalate " "
            (jsSplitOn ((packages.map jsTrim).getD "") " "),
          by simp [buildUpdateCommand, hlang, hpm, hp]⟩
    · by_cases hp : (packages.map jsTrim).getD "" = ""
      · exact Or.inl (by simp [buildUpdateCommand, hlang, hpm, hp])
      · exact Or.inr ⟨String.intercalate " "
            (jsSplitOn ((packages.map jsTrim).getD "") " "),
          by simp [buildUpdateCommand, hlang, hpm, hp]⟩
  · intro hpm level
    by_cases hp : (packages.map jsTrim).getD "" = ""
    · by_cases hl : level = "latest"
      · exact Or.inr (Or.inl (by simp [buildUpdateCommand, hlang, hpm, hp, hl]))
      · exact Or.inl (by simp [buildUpdateCommand, hlang, hpm, hp, hl])
    · by_cases hl : level = "latest"
      · exact Or.inr (Or.inr (Or.inr ⟨(packages.map jsTrim).getD "",
          by simp [buildUpdateCommand, hlang, hpm, hp, hl]⟩))
      · exact Or.inr (Or.inr (Or.inl ⟨(packages.map jsTrim).getD "",
          by simp [buildUpdateCommand, hlang, hpm, hp, hl]⟩))

/-- Witness for C3: a concrete npm record at the minor and latest levels,
and a concrete pnpm record at the latest level, with no package subset. -/
theorem buildUpdateCommand_npm_vs_pnpm_witness :
    ((buildUpdateCommand nodeInfo none "minor"
        = "npx -y npm-check-updates -u --target minor && npm install"
      ∨ ∃ scope, buildUpdateCommand nodeInfo none "minor"
        = "npx -y npm-check-updates -u --target minor " ++ scope ++ " && npm install")
     ∧ (buildUpdateCommand nodeInfo none "latest"
        = "npx -y npm-check-updates -u && npm install"
      ∨ ∃ scope, buildUpdateCommand nodeInfo none "latest"
        = "npx -y npm-check-updates -u " ++ scope ++ " && npm install"))
    ∧ (buildUpdateCommand pnpmInfo none "latest" = "pnpm update"
      ∨ buildUpdateCommand pnpmInfo none "latest" = "pnpm update --latest"
      ∨ (∃ pkgs, buildUpdateCommand pnpmInfo none "latest" = "pnpm update " ++ pkgs)
      ∨ (∃ pkgs, buildUpdateCommand pnpmInfo none "latest"
          = "pnpm update " ++ pkgs ++ " --latest")) :=
  ⟨(buildUpdateCommand_npm_vs_pnpm nodeInfo none rfl).1 rfl,
   (buildUpdateCommand_npm_vs_pnpm pnpmInfo none rfl).2 rfl "latest"⟩

/-- C4 (amended): for Node records, pnpm and yarn at level latest emit
their native update verb with the --latest flag appended, scoped to the
optional trimmed package subset; bun always emits its native update verb
with the optional subset and never any latest flag, regardless of
level. -/
theorem buildUpdateCommand_latest_flags (info : ProjectInfo)
    (hlang : info.language = .node) :
    (info.packageManager = .pnpm →
      buildUpdateCommand info none "latest" = "pnpm update --latest"
      ∧ ∀ p, jsTrim p ≠ "" → buildUpdateCommand info (some p) "latest"
          = "pnpm update " ++ jsTrim p ++ " --latest")
    ∧ (info.packageManager = .yarn →
      buildUpdateCommand info none "latest" = "yarn upgrade --latest"
      ∧ ∀ p, jsTrim p ≠ "" → buildUpdateCommand info (some p) "latest"
          = "yarn upgrade " ++ jsTrim p ++ " --latest")
    ∧ (info.packageManager = .bun → ∀ level,
      buildUpdateCommand info none level = "bun update"
      ∧ ∀ p, jsTrim p ≠ "" → buildUpdateCommand info (some p) level
          = "bun update " ++ jsTrim p) := by
  refine ⟨fun hpm => ⟨?_, fun p hp => ?_⟩, fun hpm => ⟨?_, fun p hp => ?_⟩,
    fun hpm level => ⟨?_, fun p hp => ?_⟩⟩ <;>
    simp [buildUpdateCommand, hlang, hpm]
  · simp [hp]
  · simp [hp]
  · simp [hp]

/-- Counterexample to C4 as stated: for a concrete bun record at level
latest the emitted command is the bare native verb and carries no
--latest flag at all. -/
theorem bun_latest_has_no_latest_flag :
    buildUpdateCommand bunInfo none "latest" = "bun update"
    ∧ strContains (buildUpdateCommand bunInfo none "latest") "--latest" = false :=
  ⟨by decide, by decide⟩

/-- Witness for C4 (amended): concrete pnpm, yarn and bun records at
level latest, with and without a package subset. -/
theorem buildUpdateCommand_latest_flags_witness :
    buildUpdateCommand pnpmInfo (some "svelte") "latest"
        = "pnpm update svelte --latest"
    ∧ buildUpdateCommand yarnInfo none "latest" = "yarn upgrade --latest"
    ∧ buildUpdateCommand bunInfo (some "svelte") "latest" = "bun update svelte" :=
  ⟨((buildUpdateCommand_latest_flags pnpmInfo rfl).1 rfl).2 "svelte" (by decide),
   ((buildUpdateCommand_latest_flags yarnInfo rfl).2.1 rfl).1,
   (((buildUpdateCommand_latest_flags bunInfo rfl).2.2 rfl "latest").2 "svelte"
     (by decide))⟩

/-! ## C5: failure tolerance of the outdated resolver -/

/-- C5: the resolver is a total function that degrades to the empty
mapping under every claimed failure of the external tooling, for every
ecosystem: (1) every command throws (non-zero exit, or a binary failing
at invocation); (2) every command succeeds but prints only blank output;
(3) every command's output parses as nothing (malformed JSON, and for
the line-oriented Ruby listing no line matching the expected shape);
(4) no binary is installed at all, so the pre-checked parsers skip the
invocation outright; and (5) the Go parser skips a malformed fragment of
its multi-object payload individually while a well-formed fragment
carrying an Update field still produces its entry. -/
theorem getOutdated_failure_behavior :
    (∀ env info,
      (∀ c, ∃ msg, env.runResult c = .error msg) →
      (∀ f, env.readFile f = none) →
      getOutdated env info = [])
    ∧ (∀ env info,
      (∀ c raw, env.runResult c = .ok raw → jsTrim raw = "") →
      (∀ f, env.readFile f = none) →
      getOutdated env info = [])
    ∧ (∀ env info,
      (∀ s, env.jsonParse s = none) →
      (∀ raw, env.runResult "bundle outdated --parseable" = .ok raw →
        ∀ line ∈ jsSplitOn raw "\n", gemScan (gemTokens line) = none) →
      getOutdated env info = [])
    ∧ (∀ env info, info.language ≠ .node →
      (∀ c, env.cmdExists c = false) →
      env.fileExists "gradlew" = false →
      getOutdated env info = [])
    ∧ (∀ env raw f1 f2 p v w,
        env.cmdExists "go" = true →
        env.runResult "go list -m -u -json all" = .ok raw →
        jsTrim raw ≠ "" →
        goFragments raw = [f1, f2] →
        env.jsonParse f1 = none →
        env.jsonParse f2 = some (.obj [("Path", .str p), ("Version", .str v),
          ("Update", .obj [("Version", .str w)])]) →
        v ≠ "" →
        getOutdatedGo env = [(lastTwoPath p,
          { current := v, wanted := w, latest := w, type := none })]) := by
  refine ⟨?_, ?_, ?_, ?_, ?_⟩
  · intro env info hrun hread
    cases hl : info.language
    · obtain ⟨m, hm⟩ := hrun (pmName info.packageManager ++ " outdated --json")
      simp [getOutdated, hl, getOutdatedNpm, hm]
    · obtain ⟨m3, h3⟩ := hrun "pip3 list --outdated --format=json"
      obtain ⟨m1, h1⟩ := hrun "pip list --outdated --format=json"
      by_cases hc : env.cmdExists "pip3" = true
      · simp [getOutdated, hl, getOutdatedPip, hc, h3]
      · simp [getOutdated, hl, getOutdatedPip, hc, h1]
    · obtain ⟨m, hm⟩ := hrun "cargo outdated --format json"
      simp [getOutdated, hl, getOutdatedCargo, hm]
    · obtain ⟨m, hm⟩ := hrun "go list -m -u -json all"
      simp [getOutdated, hl, getOutdatedGo, hm]
    · obtain ⟨m, hm⟩ := hrun "composer outdated --format=json --direct"
      simp [getOutdated, hl, getOutdatedComposer, hm]
    · obtain ⟨m, hm⟩ := hrun "bundle outdated --parseable"
      simp [getOutdated, hl, getOutdatedGem, hm]
    · obtain ⟨mf, hf⟩ := hrun "flutter pub outdated --json"
      obtain ⟨md, hd⟩ := hrun "dart pub outdated --json"
      by_cases hc : env.cmdExists "flutter" = true
      · simp [getOutdated, hl, getOutdatedPub, hc, hf]
      · simp [getOutdated, hl, getOutdatedPub, hc, hd]
    · simp [getOutdated, hl, getOutdatedSwift, hread]
    · obtain ⟨mw, hw⟩ :=
        hrun "./gradlew dependencyUpdates -Drevision=release --output-formatter json"
      obtain ⟨mg, hg⟩ :=
        hrun "gradle dependencyUpdates -Drevision=release --output-formatter json"
      by_cases hc : env.fileExists "gradlew" = true
      · simp [getOutdated, hl, getOutdatedGradle, hc, hw]
      · simp [getOutdated, hl, getOutdatedGradle, hc, hg]
  · intro env info hblank hread
    cases hl : info.language
    · cases hr : env.runResult (pmName info.packageManager ++ " outdated --json") with
      | error e => simp [getOutdated, hl, getOutdatedNpm, hr]
      | ok raw => simp [getOutdated, hl, getOutdatedNpm, hr, hblank _ _ hr]
    · by_cases hc : env.cmdExists "pip3" = true
      · cases hr : env.runResult "pip3 list --outdated --format=json" with
        | error e => simp [getOutdated, hl, getOutdatedPip, hc, hr]
        | ok raw => simp [getOutdated, hl, getOutdatedPip, hc, hr, hblank _ _ hr]
      · cases hr : env.runResult "pip list --outdated --format=json" with
        | error e => simp [getOutdated, hl, getOutdatedPip, hc, hr]
        | ok raw => simp [getOutdated, hl, getOutdatedPip, hc, hr, hblank _ _ hr]
    · cases hr : env.runResult "cargo outdated --format json" with
      | error e => simp [getOutdated, hl, getOutdatedCargo, hr]
      | ok raw => simp [getOutdated, hl, getOutdatedCargo, hr, hblank _ _ hr]
    · cases hr : env.runResult "go list -m -u -json all" with
      | error e => simp [getOutdated, hl, getOutdatedGo, hr]
      | ok raw => simp [getOutdated, hl, getOutdatedGo, hr, hblank _ _ hr]
    · cases hr : env.runResult "composer outdated --format=json --direct" with
      | error e => simp [getOutdated, hl, getOutdatedComposer, hr]
      | ok raw => simp [getOutdated, hl, getOutdatedComposer, hr, hblank _ _ hr]
    · cases hr : env.runResult "bundle outdated --parseable" with
      | error e => simp [getOutdated, hl, getOutdatedGem, hr]
      | ok raw => simp [getOutdated, hl, getOutdatedGem, hr, hblank _ _ hr]
    · by_cases hc : env.cmdExists "flutter" = true
      · cases hr : env.runResult "flutter pub outdated --json" with
        | error e => simp [getOutdated, hl, getOutdatedPub, hc, hr]
        | ok raw => simp [getOutdated, hl, getOutdatedPub, hc, hr, hblank _ _ hr]
      · cases hr : env.runResult "dart pub outdated --json" with
        | error e => simp [getOutdated, hl, getOutdatedPub, hc, hr]
        | ok raw => simp [getOutdated, hl, getOutdatedPub, hc, hr, hblank _ _ hr]
    · simp [getOutdated, hl, getOutdatedSwift, hread]
    · by_cases hw : env.fileExists "gradlew" = true
      · cases hr : env.runResult
            "./gradlew dependencyUpdates -Drevision=release --output-formatter json" with
        | error e => simp [getOutdated, hl, getOutdatedGradle, hw, hr]
        | ok raw => simp [getOutdated, hl, getOutdatedGradle, hw, hr, hread]
      · cases hr : env.runResult
            "gradle dependencyUpdates -Drevision=release --output-formatter json" with
        | error e => simp [getOutdated, hl, getOutdatedGradle, hw, hr]
        | ok raw => simp [getOutdated, hl, getOutdatedGradle, hw, hr, hread]
  · intro env info hparse hgem
    cases hl : info.language
    · cases hr : env.runResult (pmName info.packageManager ++ " outdated --json") with
      | error e => simp [getOutdated, hl, getOutdatedNpm, hr]
      | ok raw => simp [getOutdated, hl, getOutdatedNpm, hr, hparse]
    · by_cases hc : env.cmdExists "pip3" = true
      · cases hr : env.runResult "pip3 list --outdated --format=json" with
        | error e => simp [getOutdated, hl, getOutdatedPip, hc, hr]
        | ok raw => simp [getOutdated, hl, getOutdatedPip, hc, hr, hparse]
      · cases hr : env.runResult "pip list --outdated --format=json" with
        | error e => simp [getOutdated, hl, getOutdatedPip, hc, hr]
        | ok raw => simp [getOutdated, hl, getOutdatedPip, hc, hr, hparse]
    · cases hr : env.runResult "cargo outdated --format json" with
      | error e => simp [getOutdated, hl, getOutdatedCargo, hr]
      | ok raw => simp [getOutdated, hl, getOutdatedCargo, hr, hparse]
    · cases hr : env.runResult "go list -m -u -json all" with
      | error e => simp [getOutdated, hl, getOutdatedGo, hr]
      | ok raw =>
        have hfold : ∀ (fr : List String) (acc : OutdatedMap),
            fr.foldl (goStep env.jsonParse) acc = acc :=
          fun fr => foldl_fixed _ fr (fun acc x _ => by simp [goStep, hparse])
        simp [getOutdated, hl, getOutdatedGo, hr, hfold]
    · cases hr : env.runResult "composer outdated --format=json --direct" with
      | error e => simp [getOutdated, hl, getOutdatedComposer, hr]
      | ok raw => simp [getOutdated, hl, getOutdatedComposer, hr, hparse]
    · cases hr : env.runResult "bundle outdated --parseable" with
      | error e => simp [getOutdated, hl, getOutdatedGem, hr]
      | ok raw =>
        have hlines := hgem raw hr
        simp only [getOutdated, hl, getOutdatedGem, hr]
        split
        · rfl
        · split
          · rfl
          · exact foldl_fixed _ _ (fun acc line hmem => by simp [hlines line hmem]) []
    · by_cases hc : env.cmdExists "flutter" = true
      · cases hr : env.runResult "flutter pub outdated --json" with
        | error e => simp [getOutdated, hl, getOutdatedPub, hc, hr]
        | ok raw => simp [getOutdated, hl, getOutdatedPub, hc, hr, hparse]
      · cases hr : env.runResult "dart pub outdated --json" with
        | error e => simp [getOutdated, hl, getOutdatedPub, hc, hr]
        | ok raw => simp [getOutdated, hl, getOutdatedPub, hc, hr, hparse]
    · cases hres : env.readFile "Package.resolved" with
      | none => simp [getOutdated, hl, getOutdatedSwift, hres]
      | some content => simp [getOutdated, hl, getOutdatedSwift, hres, hparse]
    · by_cases hw : env.fileExists "gradlew" = true
      · cases hr : env.runResult
            "./gradlew dependencyUpdates -Drevision=release --output-formatter json" with
        | error e => simp [getOutdated, hl, getOutdatedGradle, hw, hr]
        | ok raw =>
          cases hrep : env.readFile "build/dependencyUpdates/report.json" with
          | none => simp [getOutdated, hl, getOutdatedGradle, hw, hr, hrep]
          | some s => simp [getOutdated, hl, getOutdatedGradle, hw, hr, hrep, hparse]
      · cases hr : env.runResult
            "gradle dependencyUpdates -Drevision=release --output-formatter json" with
        | error e => simp [getOutdated, hl, getOutdatedGradle, hw, hr]
        | ok raw =>
          cases hrep : env.readFile "build/dependencyUpdates/report.json" with
          | none => simp [getOutdated, hl, getOutdatedGradle, hw, hr, hrep]
          | some s => simp [getOutdated, hl, getOutdatedGradle, hw, hr, hrep, hparse]
  · intro env info hlang hcmd hgw
    cases hl : info.language
    · exact absurd hl hlang
    all_goals
      simp [getOutdated, hl, getOutdatedPip, getOutdatedCargo, getOutdatedGo,
        getOutdatedComposer, getOutdatedGem, getOutdatedPub, getOutdatedSwift,
        getOutdatedGradle, hcmd, hgw]
  · intro env raw f1 f2 p v w hcmd hok htrim hfr hp1 hp2 hv
    simp only [getOutdatedGo, hcmd, Bool.not_true, Bool.false_eq_true, if_false, hok]
    rw [if_neg htrim, hfr]
    simp only [List.foldl_cons, List.foldl_nil, goStep, hp1, hp2]
    simp [fieldTruthy, fieldStr, jsTruthy, Json.truthy, Json.getField, jsStrOpt,
      Json.jsStr, jsInsert, List.find?, hv]

/-- Witness for C5: each failure mode at a concrete environment - every
command throwing on a Go record, blank output on a Node record,
unparseable output on a Node record, no binaries installed on a PHP
record - plus the concrete two-fragment Go payload in which the
malformed fragment is skipped and the well-formed fragment yields its
entry. -/
theorem getOutdated_failure_behavior_witness :
    getOutdated failEnv goInfo = []
    ∧ getOutdated blankOutEnv nodeInfo = []
    ∧ getOutdated malformedEnv nodeInfo = []
    ∧ getOutdated failEnv phpInfo = []
    ∧ getOutdatedGo goEnvW = [("pkg/errors", goUpdateEntryW)] :=
  ⟨getOutdated_failure_behavior.1 failEnv goInfo
      (fun _ => ⟨"command failed", rfl⟩) (fun _ => rfl),
   getOutdated_failure_behavior.2.1 blankOutEnv nodeInfo
      (fun _ raw h => by cases h; rfl) (fun _ => rfl),
   getOutdated_failure_behavior.2.2.1 malformedEnv nodeInfo
      (fun _ => rfl) (fun raw h => by cases h; decide),
   getOutdated_failure_behavior.2.2.2.1 failEnv phpInfo
      (by decide) (fun _ => rfl) rfl,
   getOutdated_failure_behavior.2.2.2.2 goEnvW goRawW "BAD\x7d" "GOOD\x7d"
      "github.com/pkg/errors" "v0.8.0" "v0.9.1"
      rfl rfl (by decide) (by decide) rfl rfl (by decide)⟩

/-! ## C6: marker-driven classification -/

/-- A directory holding a package.json always classifies as Node, the
first ecosystem in the registry priority order. -/
theorem detectLanguage_node_of_pkg (env : Env)
    (h : env.fileExists "package.json" = true) :
    detectLanguage env = .node := by
  simp [detectLanguage, languageOrder, List.find?, markerFiles, h]

/-- When no file is readable, every ecosystem's manifest enrichment
degrades to the defaults: directory basename and empty maps. -/
theorem manifestData_default (env : Env) (lang : Language)
    (hread : ∀ f, env.readFile f = none) :
    manifestData env lang = (env.dirBase, [], [], none) := by
  cases lang <;> simp [manifestData, hread]

/-- Classification succeeds exactly when some ecosystem's marker file is
present, whatever the manifests contain. -/
theorem getProjectInfo_isSome (env : Env) :
    (getProjectInfo env).isSome = true ↔
      ∃ l ∈ languageOrder, (markerFiles l).any env.fileExists = true := by
  cases hf : languageOrder.find? (fun l => (markerFiles l).any env.fileExists) with
  | none =>
    have hall := List.find?_eq_none.mp hf
    have hnode : ((markerFiles Language.node).any env.fileExists) = false := by
      simpa using hall Language.node (by decide)
    have hmain : getProjectInfo env = none := by
      simp [getProjectInfo, detectLanguage, hf, hnode]
    rw [hmain]
    simp only [Option.isSome_none]
    constructor
    · intro h
      exact absurd h (by simp)
    · rintro ⟨l, hl, hpl⟩
      exact absurd hpl (by simpa using hall l hl)
  | some l =>
    have hpl : ((markerFiles l).any env.fileExists) = true := by
      simpa using List.find?_some hf
    have hml : l ∈ languageOrder := List.mem_of_find?_eq_some hf
    have hmain : (getProjectInfo env).isSome = true := by
      simp [getProjectInfo, detectLanguage, hf, hpl]
    rw [hmain]
    exact iff_of_true rfl ⟨l, hml, hpl⟩

/-- C6: classification selects the first ecosystem in the fixed registry
order with a marker file present (a directory with a package.json is
always Node, even when a Cargo.toml is also present), returns absent when
no ecosystem's marker exists, succeeds exactly on marker-file presence,
and a malformed or absent manifest still yields a valid record with
default name and empty dependency fields. -/
theorem classification_spec :
    (∀ env, env.fileExists "package.json" = true →
      detectLanguage env = Language.node
      ∧ ∃ r, getProjectInfo env = some r ∧ r.language = Language.node)
    ∧ (∀ env, (∀ f ∈ allMarkerFiles, env.fileExists f = false) →
        getProjectInfo env = none)
    ∧ (∀ env, (getProjectInfo env).isSome = true ↔
        ∃ l ∈ languageOrder, (markerFiles l).any env.fileExists = true)
    ∧ (∀ env, (∀ f, env.readFile f = none) →
        ∀ r, getProjectInfo env = some r →
          r.name = env.dirBase ∧ r.dependencies = [] ∧ r.devDependencies = []
          ∧ r.nodeVersion = none)
    ∧ (∀ env, env.fileExists "package.json" = true →
        (∀ s, env.jsonParse s = none) →
        ∀ r, getProjectInfo env = some r →
          r.name = env.dirBase ∧ r.dependencies = [] ∧ r.devDependencies = []) := by
  refine ⟨?_, ?_, getProjectInfo_isSome, ?_, ?_⟩
  · intro env h
    have hd := detectLanguage_node_of_pkg env h
    refine ⟨hd, ?_⟩
    simp only [getProjectInfo, hd, markerFiles, List.any_cons, List.any_nil,
      Bool.or_false, h, Bool.not_true, Bool.false_eq_true, if_false]
    exact ⟨_, rfl, rfl⟩
  · intro env hall
    have hfind : languageOrder.find?
        (fun l => (markerFiles l).any env.fileExists) = none := by
      apply List.find?_eq_none.mpr
      intro l hl
      simp only [Bool.not_eq_true, List.any_eq_false]
      intro f hf
      have hmem : f ∈ allMarkerFiles :=
        List.mem_flatten.mpr ⟨markerFiles l, List.mem_map_of_mem _ hl, hf⟩
      simp [hall f hmem]
    have hnode : ((markerFiles Language.node).any env.fileExists) = false := by
      have := List.find?_eq_none.mp hfind Language.node (by decide)
      simpa using this
    simp [getProjectInfo, detectLanguage, hfind, hnode]
  · intro env hread r hr
    simp only [getProjectInfo] at hr
    split at hr
    · exact Option.noConfusion hr
    · rw [manifestData_default env _ hread] at hr
      cases hr
      exact ⟨rfl, rfl, rfl, rfl⟩
  · intro env h hparse r hr
    have hd := detectLanguage_node_of_pkg env h
    have hmd : manifestData env .node = (env.dirBase, [], [], none) := by
      unfold manifestData
      cases env.readFile "package.json" <;> simp [hparse]
    simp only [getProjectInfo, hd, hmd] at hr
    split at hr
    · exact Option.noConfusion hr
    · cases hr
      exact ⟨rfl, rfl, rfl⟩

/-- Witness for C6: a directory with both package.json and Cargo.toml
classifies as Node; the empty directory classifies as no project; a
package-json-only directory classifies successfully and its record
carries the default name and empty dependency fields. -/
theorem classification_spec_witness :
    detectLanguage pkgAndCargoEnv = Language.node
    ∧ getProjectInfo failEnv = none
    ∧ (getProjectInfo pkgOnlyEnv).isSome = true
    ∧ (pkgOnlyRecord.name = pkgOnlyEnv.dirBase
        ∧ pkgOnlyRecord.dependencies = [] ∧ pkgOnlyRecord.devDependencies = []
        ∧ pkgOnlyRecord.nodeVersion = none)
    ∧ (pkgOnlyRecord.name = pkgOnlyEnv.dirBase
        ∧ pkgOnlyRecord.dependencies = [] ∧ pkgOnlyRecord.devDependencies = []) :=
  ⟨(classification_spec.1 pkgAndCargoEnv rfl).1,
   classification_spec.2.1 failEnv (fun _ _ => rfl),
   (classification_spec.2.2.1 pkgOnlyEnv).mpr ⟨Language.node, by decide, by decide⟩,
   classification_spec.2.2.2.1 pkgOnlyEnv (fun _ => rfl) pkgOnlyRecord (by decide),
   classification_spec.2.2.2.2 pkgOnlyEnv rfl (fun _ => rfl) pkgOnlyRecord (by decide)⟩

/-! ## C7: the version comparator -/

/-- C7: isMajorUpdate compares the leading major tokens (leading
non-digits stripped, part before the first dot) as strings, returns false
when either extracted token is empty, and satisfies the four documented
example evaluations. -/
theorem isMajorUpdate_spec :
    (∀ c l, isMajorUpdate c l
      = (majorToken c != majorToken l && majorToken c != "" && majorToken l != ""))
    ∧ (∀ c l, majorToken c = "" ∨ majorToken l = "" → isMajorUpdate c l = false)
    ∧ isMajorUpdate "2.3.1" "3.0.0" = true
    ∧ isMajorUpdate "2.3.1" "2.9.0" = false
    ∧ isMajorUpdate "^1.2.0" "^1.9.0" = false
    ∧ isMajorUpdate "abc" "def" = false := by
  refine ⟨fun c l => rfl, ?_, by decide, by decide, by decide, by decide⟩
  intro c l h
  unfold isMajorUpdate
  rcases h with h | h <;> simp [h]

/-- Witness for C7: the empty-token clause at the concrete input
("abc", "1.0"), whose left token is empty. -/
theorem isMajorUpdate_spec_witness :
    isMajorUpdate "abc" "1.0" = false :=
  isMajorUpdate_spec.2.1 "abc" "1.0" (Or.inl (by decide))

/-! ## C8: the binary pre-check guard -/

/-- C8 (amended): every parser except the Node one guards tool absence by
a pre-check - with no binaries installed (and no gradlew wrapper) each of
the eight non-Node parsers returns the empty mapping whatever the
commands would have printed. -/
theorem precheck_guard (env : Env) (info : ProjectInfo)
    (hlang : info.language ≠ .node)
    (hcmd : ∀ c, env.cmdExists c = false)
    (hgw : env.fileExists "gradlew" = false) :
    getOutdated env info = [] := by
  cases hl : info.language
  · exact absurd hl hlang
  all_goals
    simp [getOutdated, hl, getOutdatedPip, getOutdatedCargo, getOutdatedGo,
      getOutdatedComposer, getOutdatedGem, getOutdatedPub, getOutdatedSwift,
      getOutdatedGradle, hcmd, hgw]

/-- Witness for C8 (amended): the all-failing environment with a Rust
record. -/
theorem precheck_guard_witness : getOutdated failEnv rustInfo = [] :=
  precheck_guard failEnv rustInfo (by decide) (fun _ => rfl) rfl

/-- Counterexample to C8 as stated: the Node parser has no pre-check - in
a concrete environment in which no binary exists (cmdExists is constantly
false) the npm resolver still consumes the command's output and returns a
non-empty mapping, instead of returning empty without invoking the
command. -/
theorem npm_resolver_no_precheck_counterexample :
    npmNoBinEnv.cmdExists "npm" = false
    ∧ getOutdated npmNoBinEnv nodeInfo = [("express", expressEntryW)] :=
  ⟨rfl, by decide⟩

/-! ## C9: cache round trip -/

/-- C9: writing a cache file with any entry list and reading it back
within the six-hour max age yields a document holding exactly those
entries, in order, with identical field values. -/
theorem cache_round_trip (entries : List CacheEntry) (nowIso : String)
    (tWrite tRead : Int) (h : tRead - tWrite ≤ CACHE_MAX_AGE_MS) :
    readCache (writeCache entries nowIso tWrite) tRead
      = some { version := SERVER_VERSION, updatedAt := nowIso, projects := entries }
    ∧ ∀ c, readCache (writeCache entries nowIso tWrite) tRead = some c →
        c.projects = entries ∧ c.projects.length = entries.length := by
  have hread : readCache (writeCache entries nowIso tWrite) tRead
      = some { version := SERVER_VERSION, updatedAt := nowIso, projects := entries } := by
    simp only [readCache, writeCache]
    rw [if_neg (by omega)]
  refine ⟨hread, ?_⟩
  intro c hc
  rw [hread] at hc
  cases hc
  exact ⟨rfl, rfl⟩

/-- Witness for C9: a two-entry write read back one millisecond later. -/
theorem cache_round_trip_witness :
    readCache (writeCache [sampleEntryA, sampleEntryB] "t0" 5) 6
      = some { version := SERVER_VERSION, updatedAt := "t0"
               projects := [sampleEntryA, sampleEntryB] } :=
  (cache_round_trip [sampleEntryA, sampleEntryB] "t0" 5 6 (by decide)).1

/-! ## C10: the background scanner's audit-free entries -/

/-- C10: every cache entry the background scan builds fixes its security
count at 0 and scores by the audit-free formula (100 minus the capped
outdated deduction minus the major deduction, clamped to 0..100, with no
lockfile or security deduction); and for the same project and environment
the cached score can exceed the interactive computeHealthReport score. -/
theorem checker_cache_entry_spec :
    (∀ scan nowIso e, e ∈ checkerScanEntries scan nowIso → e.securityIssues = 0)
    ∧ (∀ env info nowIso,
        (checkerEntry env info nowIso).securityIssues = 0
        ∧ (checkerEntry env info nowIso).score
            = checkerScore (getOutdated env info).length
                ((getOutdated env info).filter
                  (fun e => isMajorUpdate e.2.current e.2.latest)).length)
    ∧ (checkerEntry failEnv nodeInfo "t").score
        > (computeHealthReport failEnv nodeInfo).score := by
  refine ⟨?_, fun env info nowIso => ⟨rfl, rfl⟩, by decide⟩
  intro scan nowIso e he
  rcases List.mem_map.mp he with ⟨pe, _, rfl⟩
  rfl

/-- Witness for C10: a one-project scan whose entry carries a zero
security count. -/
theorem checker_cache_entry_spec_witness :
    (checkerEntry failEnv nodeInfo "t").securityIssues = 0 :=
  checker_cache_entry_spec.1 [(failEnv, nodeInfo)] "t"
    (checkerEntry failEnv nodeInfo "t") (by simp [checkerScanEntries])

end Depsonar
